import Mathlib

/-!
Verification of the stellar-cartography extraction pipeline.

The development shallowly embeds the two subsystems of the repository:
the index-driven asset router of src/extract_data.js (with its helpers
isValidSQLite and convertPickleToJson) and the multi-stage label
resolver of src/utils/extract_system_labels.js.  JavaScript values
loaded from JSON are modelled by the inductive type JVal; file-system
and decoder primitives are modelled by an explicit World record of
fallible operations, and each routine returns the trace of its
observable effects together with the error, if any, that escapes it
uncaught.  Numeric object keys of JSON objects are modelled directly as
natural numbers (the scripts immediately parse them with parseInt).
-/

/-- A JSON-like JavaScript value: null, booleans, numbers, strings,
arrays and (numerically keyed) objects. -/
inductive JVal where
  | jnull : JVal
  | jbool (b : Bool) : JVal
  | jnum (n : Int) : JVal
  | jstr (s : String) : JVal
  | jarr (elems : List JVal) : JVal
  | jobj (fields : List (Nat × JVal)) : JVal

/-- Whether a value is the JavaScript null (indexing through null
throws a TypeError at runtime). -/
def isNull : JVal → Bool
  | .jnull => true
  | _ => false

/-- JavaScript truthiness of a value (undefined is represented by a
failed Option lookup, never by a JVal). -/
def truthy : JVal → Bool
  | .jnull => false
  | .jbool b => b
  | .jnum n => n != 0
  | .jstr s => s != ""
  | .jarr _ => true
  | .jobj _ => true

/-- JavaScript property access v[i] for a numeric key: array indexing,
object-key lookup, or string indexing (a one-character string); any
other base, or an absent key, yields undefined (none). -/
def jsGet : JVal → Nat → Option JVal
  | .jarr elems, i => elems[i]?
  | .jobj fields, i => (fields.find? (fun p => p.1 == i)).map Prod.snd
  | .jstr s, i => (s.data[i]?).map (fun ch => .jstr (String.mk [ch]))
  | _, _ => none

/-- The 16 bytes of the string constant sqliteHeader in
src/unnamed/part_000: the ASCII text of the SQLite magic followed by a
null terminator. -/
def sqliteHeader : List Nat :=
  [83, 81, 76, 105, 116, 101, 32, 102, 111, 114, 109, 97, 116, 32, 51, 0]

/-- Node's ascii decoding of a buffer: every byte has its high bit
cleared before being read as a character code. -/
def asciiDecode (bytes : List Nat) : List Nat :=
  bytes.map (fun b => b % 128)

/-- isValidSQLite of src/unnamed/part_000, lines 51-69.  The file read
is modelled by its result: none when reading threw (the catch branch
returns false), some bytes otherwise.  Buffers shorter than 16 bytes
return false; otherwise the first 16 bytes are decoded as ascii and
compared with the header string. -/
def isValidSQLite (contents : Option (List Nat)) : Bool :=
  match contents with
  | none => false
  | some buffer =>
    if buffer.length < 16 then false
    else asciiDecode (buffer.take 16) == sqliteHeader

example : isValidSQLite (some sqliteHeader) = true := by decide
example : isValidSQLite (some [83]) = false := by decide
example : isValidSQLite none = false := by decide
example : isValidSQLite (some (211 :: sqliteHeader.drop 1)) = true := by decide

/-- One parsed manifest line of src/extract_data.js: the four capture
groups the line handler destructures (the fifth, trailing group is
discarded by the destructuring). -/
structure ManifestEntry where
  respath : String
  filename : String
  filetype : String
  sourceRelativePath : String
deriving DecidableEq

/-- All splits of a character list into a pair of a front part and a
back part, shortest front first: the candidate orders of a lazy dot-star
group in a JavaScript regular expression. -/
def charSplits : List Char → List (List Char × List Char)
  | [] => [([], [])]
  | c :: rest => ([], c :: rest) :: (charSplits rest).map (fun p => (c :: p.1, p.2))

/-- Candidate matches of a greedy one-or-more character-class group:
the nonempty p-satisfying front parts of the list, longest first. -/
def greedyPlus (p : Char → Bool) (s : List Char) : List (List Char × List Char) :=
  let n := (s.takeWhile p).length
  (List.range n).map (fun i => (s.take (n - i), s.drop (n - i)))

/-- The anchored manifest-line pattern of src/extract_data.js, line 57:
a lazy leading group, then a slash-free segment, a literal dot, a
comma-free segment, a literal comma, a slash-free segment, a literal
slash, a comma-free segment, and a discarded greedy tail.  Backtracking
is modelled by searching the candidate lists in the preference order of
the JavaScript engine and keeping the first full match. -/
def matchManifestLine (s : List Char) : Option ManifestEntry :=
  (charSplits s).findSome? fun g1 =>
    (greedyPlus (fun c => c != '/') g1.2).findSome? fun g2 =>
      match g2.2 with
      | '.' :: r2 =>
        (greedyPlus (fun c => c != ',') r2).findSome? fun g3 =>
          match g3.2 with
          | ',' :: r3 =>
            (greedyPlus (fun c => c != '/') r3).findSome? fun g4 =>
              match g4.2 with
              | '/' :: r4 =>
                (greedyPlus (fun c => c != ',') r4).findSome? fun g5 =>
                  some { respath := String.mk g1.1
                         filename := String.mk g2.1
                         filetype := String.mk g3.1
                         sourceRelativePath := String.mk (g4.1 ++ '/' :: g5.1) }
              | _ => none
          | _ => none
      | _ => none

example : matchManifestLine "a.static,b/c".data =
    some { respath := "", filename := "a", filetype := "static",
           sourceRelativePath := "b/c" } := by decide

example : matchManifestLine "res:/staticdata/Foo.static,cc/f00,md5".data =
    some { respath := "res:/staticdata/", filename := "Foo", filetype := "static",
           sourceRelativePath := "cc/f00" } := by decide

example : matchManifestLine "nocomma/or.dot".data = none := by decide

/-- The asset categories of the switch in the line handler
(src/extract_data.js, lines 76-97). -/
inductive AssetCategory where
  | static : AssetCategory
  | schema : AssetCategory
  | binaryFormat : AssetCategory
  | serializedBlob : AssetCategory
  | other (rawType : String) : AssetCategory
deriving DecidableEq

/-- Category selection: the switch dispatches on the exact filetype
tag; unknown tags fall through to the default copy. -/
def categorize (filetype : String) : AssetCategory :=
  if filetype = "static" then .static
  else if filetype = "schema" then .schema
  else if filetype = "fsdbinary" then .binaryFormat
  else if filetype = "pickle" then .serializedBlob
  else .other filetype

/-- An observable effect of a materialization routine: a completed file
copy, a written JSON artifact, a console.log line, or a console.error
line carrying its cause. -/
inductive Event where
  | copied (src dest : String) : Event
  | wrote (dest : String) (value : JVal) : Event
  | logged (msg : String) : Event
  | errorLogged (msg cause : String) : Event

/-- The file-system and decoder primitives a run interacts with,
modelled by their outcomes: every fallible operation either succeeds or
throws the given error. -/
structure World where
  baseDir : String
  copyFile : String → String → Except String Unit
  readFile : String → Option (List Nat)
  pickleDecode : String → Except String JVal
  writeJson : String → JVal → Except String Unit
  mkdirp : String → Except String Unit

def destStaticFile (filename : String) : String := "data/static/" ++ filename ++ ".static"

def destSqliteFile (filename : String) : String := "data/sqlite/" ++ filename ++ ".sqlite"

def destSchemaFile (filename : String) : String := "data/schema/" ++ filename ++ ".schema"

def destFsdBinaryFile (filename : String) : String := "data/fsdbinary/src/" ++ filename ++ ".fsdbinary"

def destPickleFile (filename : String) : String := "data/pickle/" ++ filename ++ ".pickle"

def destJsonFile (filename : String) : String := "data/json/" ++ filename ++ ".json"

/-- String.prototype.includes: the needle occurs as a contiguous
infix of the haystack. -/
def containsSub (needle : List Char) : List Char → Bool
  | [] => needle.isEmpty
  | c :: rest => needle.isPrefixOf (c :: rest) || containsSub needle rest

/-- String.prototype.replace with a string pattern: only the first
occurrence of the pattern is replaced. -/
def replaceFirst (pat rep : List Char) : List Char → List Char
  | [] => []
  | c :: rest =>
    if pat.isPrefixOf (c :: rest) then rep ++ (c :: rest).drop pat.length
    else c :: replaceFirst pat rep rest

/-- processStaticFile (src/extract_data.js, lines 101-117): copy the
source into the static directory; then sniff the source bytes and, on a
match, make an independent second copy into the sqlite directory,
otherwise log the non-match.  The pair is the trace of effects together
with the error, if any, escaping the routine uncaught. -/
def processStaticFile (w : World) (filename sourceFilePath : String) :
    List Event × Option String :=
  match w.copyFile sourceFilePath (destStaticFile filename) with
  | .error e => ([], some e)
  | .ok _ =>
    if isValidSQLite (w.readFile sourceFilePath) then
      match w.copyFile sourceFilePath (destSqliteFile filename) with
      | .error e =>
        ([Event.copied sourceFilePath (destStaticFile filename),
          Event.logged ("Copied " ++ sourceFilePath ++ " to " ++ destStaticFile filename)],
         some e)
      | .ok _ =>
        ([Event.copied sourceFilePath (destStaticFile filename),
          Event.logged ("Copied " ++ sourceFilePath ++ " to " ++ destStaticFile filename),
          Event.copied sourceFilePath (destSqliteFile filename),
          Event.logged ("Copied " ++ sourceFilePath ++ " to " ++ destSqliteFile filename)],
         none)
    else
      ([Event.copied sourceFilePath (destStaticFile filename),
        Event.logged ("Copied " ++ sourceFilePath ++ " to " ++ destStaticFile filename),
        Event.logged ("Invalid SQLite file: " ++ sourceFilePath)], none)

/-- processSchemaFile (src/extract_data.js, lines 119-123). -/
def processSchemaFile (w : World) (filename sourceFilePath : String) :
    List Event × Option String :=
  match w.copyFile sourceFilePath (destSchemaFile filename) with
  | .error e => ([], some e)
  | .ok _ =>
    ([Event.copied sourceFilePath (destSchemaFile filename),
      Event.logged ("Copied " ++ sourceFilePath ++ " to " ++ destSchemaFile filename)], none)

/-- processFsdBinaryFile (src/extract_data.js, lines 125-129). -/
def processFsdBinaryFile (w : World) (filename sourceFilePath : String) :
    List Event × Option String :=
  match w.copyFile sourceFilePath (destFsdBinaryFile filename) with
  | .error e => ([], some e)
  | .ok _ =>
    ([Event.copied sourceFilePath (destFsdBinaryFile filename),
      Event.logged ("Copied " ++ sourceFilePath ++ " to " ++ destFsdBinaryFile filename)], none)

/-- convertPickleToJson (src/utils/pickle_to_json.js): read and parse
the pickle (one combined fallible step), serialize the result to the
JSON destination; on any failure log the conversion error and rethrow
it to the caller. -/
def convertPickleToJson (w : World) (pickleFilePath jsonFilePath : String) :
    List Event × Option String :=
  match w.pickleDecode pickleFilePath with
  | .error e =>
    ([Event.errorLogged ("Error converting " ++ pickleFilePath ++ " to JSON:") e], some e)
  | .ok v =>
    match w.writeJson jsonFilePath v with
    | .error e =>
      ([Event.errorLogged ("Error converting " ++ pickleFilePath ++ " to JSON:") e], some e)
    | .ok _ =>
      ([Event.wrote jsonFilePath v,
        Event.logged ("Converted " ++ pickleFilePath ++ " to " ++ jsonFilePath)], none)

/-- processPickleFile (src/extract_data.js, lines 131-150): copy the
blob into the pickle directory, convert the copy to JSON, and note a
starmap dataset; the whole body is wrapped in try/catch, so every
failure is logged with the filename and nothing escapes. -/
def processPickleFile (w : World) (filename sourceFilePath : String) :
    List Event × Option String :=
  match w.copyFile sourceFilePath (destPickleFile filename) with
  | .error e =>
    ([Event.errorLogged ("Error processing pickle file " ++ filename ++ ":") e], none)
  | .ok _ =>
    match convertPickleToJson w (destPickleFile filename) (destJsonFile filename) with
    | (convEvents, some e) =>
      ([Event.copied sourceFilePath (destPickleFile filename),
        Event.logged ("Copied " ++ sourceFilePath ++ " to " ++ destPickleFile filename)] ++
        convEvents ++
        [Event.errorLogged ("Error processing pickle file " ++ filename ++ ":") e], none)
    | (convEvents, none) =>
      ([Event.copied sourceFilePath (destPickleFile filename),
        Event.logged ("Copied " ++ sourceFilePath ++ " to " ++ destPickleFile filename)] ++
        convEvents ++
        (if containsSub "starmapcache".data filename.data ||
            containsSub "starmap".data filename.data
         then [Event.logged ("Found starmap data: " ++ destJsonFile filename)]
         else []), none)

/-- The raw destination directory of an entry with an unknown type tag:
data/raw joined with the respath, its res: scheme stripped. -/
def rawDir (respath : String) : String :=
  "data/raw/" ++ String.mk (replaceFirst "res:".data [] respath.data)

/-- defaultCopyFile (src/extract_data.js, lines 152-167): ensure the
nested raw directory, then copy under the declared raw type suffix. -/
def defaultCopyFile (w : World) (filename filetype sourceFilePath respath : String) :
    List Event × Option String :=
  match w.mkdirp (rawDir respath) with
  | .error e => ([], some e)
  | .ok _ =>
    match w.copyFile sourceFilePath (rawDir respath ++ "/" ++ filename ++ "." ++ filetype) with
    | .error e => ([], some e)
    | .ok _ =>
      ([Event.copied sourceFilePath (rawDir respath ++ "/" ++ filename ++ "." ++ filetype),
        Event.logged ("Copied " ++ sourceFilePath ++ " to " ++
          (rawDir respath ++ "/" ++ filename ++ "." ++ filetype))], none)

/-- The dispatch of the switch statement: exactly one materialization
routine runs for the selected category. -/
def materialize (w : World) (cat : AssetCategory) (e : ManifestEntry) :
    List Event × Option String :=
  match cat with
  | .static => processStaticFile w e.filename (w.baseDir ++ "/" ++ e.sourceRelativePath)
  | .schema => processSchemaFile w e.filename (w.baseDir ++ "/" ++ e.sourceRelativePath)
  | .binaryFormat => processFsdBinaryFile w e.filename (w.baseDir ++ "/" ++ e.sourceRelativePath)
  | .serializedBlob => processPickleFile w e.filename (w.baseDir ++ "/" ++ e.sourceRelativePath)
  | .other rawType =>
    defaultCopyFile w e.filename rawType (w.baseDir ++ "/" ++ e.sourceRelativePath) e.respath

/-- The per-line handler (src/extract_data.js, lines 63-99): parse the
line against the pattern; a non-matching line returns before the counter
increment with no effect, a matching line increments the processed
counter once and runs exactly one materialization routine.  The first
component is the counter increment contributed by the line. -/
def handleManifestLine (w : World) (line : String) :
    Nat × (List Event × Option String) :=
  match matchManifestLine line.data with
  | none => (0, ([], none))
  | some e => (1, materialize w (categorize e.filetype) e)

/-- One region object of starmapcache.json: the two optional ID lists
the walk reads (a missing field is falsy and skipped; a present empty
list is truthy and contributes nothing). -/
structure RegionEntry where
  solarSystemIDs : Option (List Nat)
  constellationIDs : Option (List Nat)
deriving DecidableEq

/-- One constellation object of starmapcache.json. -/
structure ConstellationEntry where
  solarSystemIDs : Option (List Nat)
deriving DecidableEq

/-- The star-map catalog: objects keyed by numeric ID, modelled as
association lists in property order, each top-level section optional. -/
structure StarMapCache where
  regions : Option (List (Nat × RegionEntry))
  constellations : Option (List (Nat × ConstellationEntry))
  solarSystems : Option (List Nat)
deriving DecidableEq

/-- A falsy-or-absent list reads as empty in the walk. -/
def optList {α : Type} (o : Option (List α)) : List α := o.getD []

/-- JavaScript Set.prototype.add: append the element unless already
present. -/
def jsSetAdd (s : List Nat) (x : Nat) : List Nat :=
  if x ∈ s then s else s ++ [x]

/-- Adding every element of a list to a JavaScript set, in order. -/
def jsSetAddAll (s : List Nat) (xs : List Nat) : List Nat :=
  xs.foldl jsSetAdd s

/-- allRegionIds of the ID-discovery pass (src/utils/extract_system_labels.js,
lines 47-51): the keys of the regions object. -/
def allRegionIds (c : StarMapCache) : List Nat :=
  jsSetAddAll [] ((optList c.regions).map Prod.fst)

/-- allConstellationIds of the ID-discovery pass (lines 53-66): the
region-level constellationIDs lists, then the keys of the
constellations object. -/
def allConstellationIds (c : StarMapCache) : List Nat :=
  let s1 := (optList c.regions).foldl
    (fun s p => jsSetAddAll s (optList p.2.constellationIDs)) []
  jsSetAddAll s1 ((optList c.constellations).map Prod.fst)

/-- allSystemIds of the ID-discovery pass (lines 53-78): the
region-level solarSystemIDs lists, then the constellation-level
solarSystemIDs lists, then the keys of a direct solarSystems object. -/
def allSystemIds (c : StarMapCache) : List Nat :=
  let s1 := (optList c.regions).foldl
    (fun s p => jsSetAddAll s (optList p.2.solarSystemIDs)) []
  let s2 := (optList c.constellations).foldl
    (fun s p => jsSetAddAll s (optList p.2.solarSystemIDs)) s1
  jsSetAddAll s2 (optList c.solarSystems)

/-- One entry of localization_fsd_main.json's labels object: the two
properties the indexing pass reads. -/
structure LabelEntry where
  FullPath : Option String
  label : Option String
deriving DecidableEq

/-- localization_fsd_main.json: the labels object is optional and keyed
by numeric message ID. -/
structure MainLocalization where
  labels : Option (List (Nat × LabelEntry))
deriving DecidableEq

/-- parseInt of a digit run. -/
def digitsToNat (ds : List Char) : Nat :=
  ds.foldl (fun acc c => acc * 10 + (c.toNat - 48)) 0

/-- The unanchored search of label.match(pattern followed by digits):
scan start positions left to right; at the first position where the
literal pattern is followed by at least one digit, capture the maximal
digit run and parse it. -/
def scanMatch (pat : List Char) : List Char → Option Nat
  | [] => none
  | c :: rest =>
    if pat.isPrefixOf (c :: rest) then
      let ds := ((c :: rest).drop pat.length).takeWhile Char.isDigit
      if ds.isEmpty then scanMatch pat rest
      else some (digitsToNat ds)
    else scanMatch pat rest

example : scanMatch "solar_system_".data "solar_system_30000001".data = some 30000001 := by decide
example : scanMatch "solar_system_".data "solar_system_x".data = none := by decide
example : scanMatch "region_".data "xx_region_7end".data = some 7 := by decide

/-- One branch of the if/else-if chain of the message-ID indexing pass
(lines 92-123): the entry contributes an object ID for a kind when its
FullPath equals the kind's tag, its label is truthy, and the kind's
pattern matches somewhere in the label. -/
def entryExtract (path pat : String) (e : LabelEntry) : Option Nat :=
  if e.FullPath = some path then
    match e.label with
    | some l => if l = "" then none else scanMatch pat.data l.data
    | none => none
  else none

/-- JavaScript Map.prototype.set: overwrite the value at an existing
key in place, otherwise append the pair. -/
def mapSet {α : Type} (m : List (Nat × α)) (k : Nat) (v : α) : List (Nat × α) :=
  if ∃ p ∈ m, p.1 = k then
    m.map (fun p => if p.1 = k then (k, v) else p)
  else m ++ [(k, v)]

/-- One step of the indexing fold: a label entry (messageId, entry)
records objectId to messageId when the extracted ID belongs to the
discovered set. -/
def stepKind (path pat : String) (ids : List Nat)
    (m : List (Nat × Nat)) (p : Nat × LabelEntry) : List (Nat × Nat) :=
  match entryExtract path pat p.2 with
  | some objectId => if objectId ∈ ids then mapSet m objectId p.1 else m
  | none => m

/-- The per-kind message-ID index built by walking the labels object in
order.  The source builds the three kinds in one pass whose if/else-if
branches test three pairwise distinct FullPath constants, so each entry
feeds at most one kind and the pass equals three independent walks. -/
def buildKindIndex (labels : List (Nat × LabelEntry)) (path pat : String)
    (ids : List Nat) : List (Nat × Nat) :=
  labels.foldl (stepKind path pat ids) []

/-- The three stellar object kinds. -/
inductive Kind where
  | system : Kind
  | constellation : Kind
  | region : Kind
deriving DecidableEq

/-- The FullPath tag tested for a kind. -/
def kindPath : Kind → String
  | .system => "Map/SolarSystems"
  | .constellation => "Map/Constellations"
  | .region => "Map/Regions"

/-- The label pattern searched for a kind. -/
def kindPat : Kind → String
  | .system => "solar_system_"
  | .constellation => "constellation_"
  | .region => "region_"

/-- The discovered ID set consulted for a kind. -/
def kindIdSet : Kind → StarMapCache → List Nat
  | .system => allSystemIds
  | .constellation => allConstellationIds
  | .region => allRegionIds

/-- The messageId index of one kind. -/
def kindIndex (k : Kind) (c : StarMapCache) (m : MainLocalization) : List (Nat × Nat) :=
  buildKindIndex (optList m.labels) (kindPath k) (kindPat k) (kindIdSet k c)

/-- The name-resolution test of the third pass (lines 140-176): the
string table must hold a truthy entry at the messageId which is an
array of positive length whose first element is truthy. -/
def resolveOne (locData : JVal) (messageId : Nat) : Option JVal :=
  match jsGet locData messageId with
  | some entry =>
    if truthy entry then
      match entry with
      | .jarr elems =>
        if 0 < elems.length then
          match elems.head? with
          | some v => if truthy v then some v else none
          | none => none
        else none
      | _ => none
    else none
  | none => none

/-- One step of the resolution fold over a kind's (objectId, messageId)
index. -/
def stepResolve (locData : JVal) (m : List (Nat × JVal)) (p : Nat × Nat) :
    List (Nat × JVal) :=
  match resolveOne locData p.2 with
  | some v => mapSet m p.1 v
  | none => m

/-- The LabelMap of one kind: fold the resolution step over the kind's
index in insertion order. -/
def buildLabels (locData : JVal) (idx : List (Nat × Nat)) : List (Nat × JVal) :=
  idx.foldl (stepResolve locData) []

/-- The combined output artifact: the three ID-to-name maps. -/
structure StellarLabels where
  systems : List (Nat × JVal)
  constellations : List (Nat × JVal)
  regions : List (Nat × JVal)

/-- The section of the combined output belonging to a kind. -/
def kindOut : Kind → StellarLabels → List (Nat × JVal)
  | .system => StellarLabels.systems
  | .constellation => StellarLabels.constellations
  | .region => StellarLabels.regions

/-- Whether all three message-ID indexes are empty: exactly then do the
three resolution folds perform no string-table lookup at all. -/
def allIdxEmpty (c : StarMapCache) (m : MainLocalization) : Bool :=
  (kindIndex .system c m).isEmpty && (kindIndex .constellation c m).isEmpty &&
    (kindIndex .region c m).isEmpty

/-- extractStellarLabels (src/utils/extract_system_labels.js): discover
the ID sets, build the three message-ID indexes, take index 1 of the
English string-table document, and resolve each kind's names.  The
result is none when the run dies with an uncaught TypeError: the
document itself is null, or its element at index 1 is null or absent
while some lookup is about to be performed on it.  In every other case
the three maps are produced and written. -/
def extractStellarLabels (c : StarMapCache) (m : MainLocalization) (enUs : JVal) :
    Option StellarLabels :=
  if isNull enUs then none
  else
    match jsGet enUs 1 with
    | some locData =>
      if isNull locData then
        if allIdxEmpty c m then
          some { systems := [], constellations := [], regions := [] }
        else none
      else
        some { systems := buildLabels locData (kindIndex .system c m)
               constellations := buildLabels locData (kindIndex .constellation c m)
               regions := buildLabels locData (kindIndex .region c m) }
    | none =>
      if allIdxEmpty c m then
        some { systems := [], constellations := [], regions := [] }
      else none

/-- loadJsonFile (src/utils/extract_system_labels.js, lines 20-29): the
read-and-parse of one catalog file, modelled by its outcome; a missing
or unparsable file logs a descriptive error and exits the process with
status 1, modelled as the error branch. -/
def loadJsonFile {α : Type} (name : String) (content : Option α) : Except String α :=
  match content with
  | some v => .ok v
  | none => .error ("Error loading " ++ name)

/-- The catalog-loading head of extractStellarLabels (lines 34-37): the
three files are loaded in order and any failure aborts before any
resolution work; only with all three catalogs does the resolution run. -/
def runExtraction (c : Option StarMapCache) (m : Option MainLocalization)
    (e : Option JVal) : Except String (Option StellarLabels) :=
  match loadJsonFile "starmapcache.json" c with
  | .error msg => .error msg
  | .ok cache =>
    match loadJsonFile "localization_fsd_main.json" m with
    | .error msg => .error msg
    | .ok mainLoc =>
      match loadJsonFile "localization_fsd_en-us.json" e with
      | .error msg => .error msg
      | .ok enUs => .ok (extractStellarLabels cache mainLoc enUs)

/-! Concrete fixtures used to evaluate the development on closed inputs. -/

/-- A world in which every primitive succeeds and the bytes of every
file are exactly the SQLite signature. -/
def okWorld : World :=
  { baseDir := "base"
    copyFile := fun _ _ => .ok ()
    readFile := fun _ => some sqliteHeader
    pickleDecode := fun _ => .ok (JVal.jobj [])
    writeJson := fun _ _ => .ok ()
    mkdirp := fun _ => .ok () }

/-- A world in which every primitive fails with EACCES and no file is
readable. -/
def failWorld : World :=
  { baseDir := "base"
    copyFile := fun _ _ => .error "EACCES"
    readFile := fun _ => none
    pickleDecode := fun _ => .error "EACCES"
    writeJson := fun _ _ => .error "EACCES"
    mkdirp := fun _ => .error "EACCES" }

/-- A world in which only the blob decoder fails. -/
def decodeFailWorld : World :=
  { okWorld with pickleDecode := fun _ => .error "UnsupportedOpcode" }

/-- The entry the manifest pattern extracts from the line a.pickle,b/c. -/
def entryPickle : ManifestEntry :=
  { respath := "", filename := "a", filetype := "pickle", sourceRelativePath := "b/c" }

/-- A 16-byte buffer equal to the SQLite signature except that the
first byte carries a set high bit (83 + 128 = 211). -/
def maskedSqliteBuf : List Nat := 211 :: sqliteHeader.drop 1

/-- A star-map catalog with one region, one constellation and one
solar system. -/
def cacheW : StarMapCache :=
  { regions := some [(10000001,
      { solarSystemIDs := some [30000001], constellationIDs := some [20000001] })]
    constellations := some [(20000001, { solarSystemIDs := some [30000001] })]
    solarSystems := none }

/-- A localization index holding one solar-system label entry at
messageId 500. -/
def mainLocW : MainLocalization :=
  { labels := some [(500,
      { FullPath := some "Map/SolarSystems", label := some "solar_system_30000001" })] }

/-- An English string-table document whose element at index 1 carries
the name Jita at messageId 500. -/
def enUsW : JVal :=
  .jarr [.jobj [], .jobj [(500, .jarr [.jstr "Jita"])]]

/-- The output of the extraction on the fixtures above. -/
def outW : StellarLabels :=
  { systems := [(30000001, .jstr "Jita")], constellations := [], regions := [] }

/-- Like enUsW but the name at messageId 500 is the empty string. -/
def enUsEmptyName : JVal :=
  .jarr [.jobj [], .jobj [(500, .jarr [.jstr ""])]]

/-- The output on enUsEmptyName: all three maps empty. -/
def outEmptyName : StellarLabels :=
  { systems := [], constellations := [], regions := [] }

/-! Helper lemmas about the set and map primitives. -/

theorem mem_map_fst {α : Type} {l : List (Nat × α)} {id : Nat} :
    id ∈ l.map Prod.fst ↔ ∃ e, (id, e) ∈ l := by
  rw [List.mem_map]
  constructor
  · rintro ⟨⟨a, b⟩, hp, heq⟩
    cases heq
    exact ⟨b, hp⟩
  · rintro ⟨e, he⟩
    exact ⟨(id, e), he, rfl⟩

theorem mem_jsSetAdd {s : List Nat} {x a : Nat} :
    a ∈ jsSetAdd s x ↔ a ∈ s ∨ a = x := by
  unfold jsSetAdd
  split
  · next hx =>
    constructor
    · exact fun h => Or.inl h
    · rintro (h | rfl)
      · exact h
      · exact hx
  · simp [List.mem_append]

theorem nodup_jsSetAdd {s : List Nat} {x : Nat} (h : s.Nodup) :
    (jsSetAdd s x).Nodup := by
  unfold jsSetAdd
  split
  · exact h
  · next hx => simp [List.nodup_append, h, hx]

theorem mem_jsSetAddAll {a : Nat} :
    ∀ (xs s : List Nat), a ∈ jsSetAddAll s xs ↔ a ∈ s ∨ a ∈ xs
  | [], s => by simp [jsSetAddAll]
  | x :: xs, s => by
    have ih := mem_jsSetAddAll (a := a) xs (jsSetAdd s x)
    simp only [jsSetAddAll, List.foldl_cons] at ih ⊢
    rw [ih, mem_jsSetAdd, List.mem_cons]
    tauto

theorem nodup_jsSetAddAll :
    ∀ (xs s : List Nat), s.Nodup → (jsSetAddAll s xs).Nodup
  | [], _, h => h
  | x :: xs, s, h => by
    simpa only [jsSetAddAll, List.foldl_cons] using
      nodup_jsSetAddAll xs (jsSetAdd s x) (nodup_jsSetAdd h)

theorem mem_foldl_jsSetAddAll {β : Type} (f : β → List Nat) {a : Nat} :
    ∀ (l : List β) (s : List Nat),
      a ∈ l.foldl (fun acc p => jsSetAddAll acc (f p)) s ↔ a ∈ s ∨ ∃ p ∈ l, a ∈ f p
  | [], s => by simp
  | x :: l, s => by
    have ih := mem_foldl_jsSetAddAll f (a := a) l (jsSetAddAll s (f x))
    simp only [List.foldl_cons] at ih ⊢
    rw [ih, mem_jsSetAddAll]
    simp only [List.mem_cons]
    constructor
    · rintro ((h | h) | ⟨p, hp, hf⟩)
      · exact Or.inl h
      · exact Or.inr ⟨x, Or.inl rfl, h⟩
      · exact Or.inr ⟨p, Or.inr hp, hf⟩
    · rintro (h | ⟨p, (rfl | hp), hf⟩)
      · exact Or.inl (Or.inl h)
      · exact Or.inl (Or.inr hf)
      · exact Or.inr ⟨p, hp, hf⟩

theorem nodup_foldl_jsSetAddAll {β : Type} (f : β → List Nat) :
    ∀ (l : List β) (s : List Nat), s.Nodup →
      (l.foldl (fun acc p => jsSetAddAll acc (f p)) s).Nodup
  | [], _, h => h
  | x :: l, s, h => by
    simpa only [List.foldl_cons] using
      nodup_foldl_jsSetAddAll f l (jsSetAddAll s (f x)) (nodup_jsSetAddAll (f x) s h)

theorem pair_eq_fst {α : Type} {a k : Nat} {b v : α} (h : (k, v) = (a, b)) : a = k :=
  (congrArg Prod.fst h).symm

theorem pair_eq_snd {α : Type} {a k : Nat} {b v : α} (h : (k, v) = (a, b)) : b = v :=
  (congrArg Prod.snd h).symm

theorem mem_mapSet {α : Type} {m : List (Nat × α)} {k a : Nat} {v b : α}
    (h : (a, b) ∈ mapSet m k v) : (a, b) ∈ m ∨ (a = k ∧ b = v) := by
  unfold mapSet at h
  split at h
  · obtain ⟨p, hp, heq⟩ := List.mem_map.1 h
    split at heq
    · right
      exact ⟨pair_eq_fst heq, pair_eq_snd heq⟩
    · left
      exact heq ▸ hp
  · rcases List.mem_append.1 h with hm | hm
    · exact Or.inl hm
    · right
      have heq := (List.mem_singleton.1 hm).symm
      exact ⟨pair_eq_fst heq, pair_eq_snd heq⟩

theorem keys_nodup_mapSet {α : Type} {m : List (Nat × α)} {k : Nat} {v : α}
    (h : (m.map Prod.fst).Nodup) : ((mapSet m k v).map Prod.fst).Nodup := by
  unfold mapSet
  split
  · have : (m.map (fun p => if p.1 = k then (k, v) else p)).map Prod.fst = m.map Prod.fst := by
      rw [List.map_map]
      refine List.map_congr_left fun p _ => ?_
      by_cases hk : p.1 = k
      · simp [hk]
      · simp [hk]
    rw [this]
    exact h
  · next hex =>
    rw [List.map_append]
    simp only [List.map_cons, List.map_nil]
    rw [List.nodup_append]
    refine ⟨h, List.nodup_singleton k, ?_⟩
    intro x hx hxk
    rcases List.mem_singleton.1 hxk with rfl
    obtain ⟨p, hp, hpk⟩ := List.mem_map.1 hx
    exact hex ⟨p, hp, hpk⟩

theorem assoc_val_unique {α : Type} :
    ∀ {m : List (Nat × α)} {a : Nat} {b1 b2 : α}, (m.map Prod.fst).Nodup →
      (a, b1) ∈ m → (a, b2) ∈ m → b1 = b2 := by
  intro m
  induction m with
  | nil => intro a b1 b2 _ h1; cases h1
  | cons p rest ih =>
    intro a b1 b2 hnd h1 h2
    simp only [List.map_cons, List.nodup_cons] at hnd
    rcases List.mem_cons.1 h1 with h1 | h1 <;> rcases List.mem_cons.1 h2 with h2 | h2
    · rw [← h1] at h2
      exact (congrArg Prod.snd h2).symm
    · exfalso
      apply hnd.1
      rw [← h1]
      exact List.mem_map.2 ⟨(a, b2), h2, rfl⟩
    · exfalso
      apply hnd.1
      rw [← h2]
      exact List.mem_map.2 ⟨(a, b1), h1, rfl⟩
    · exact ih hnd.2 h1 h2

/-! Characterizations of the two folds of the label resolver. -/

theorem stepKind_eq_none {path pat : String} {ids : List Nat} {acc : List (Nat × Nat)}
    {p : Nat × LabelEntry} (hx : entryExtract path pat p.2 = none) :
    stepKind path pat ids acc p = acc := by
  unfold stepKind
  rw [hx]

theorem stepKind_eq_some {path pat : String} {ids : List Nat} {acc : List (Nat × Nat)}
    {p : Nat × LabelEntry} {objectId : Nat}
    (hx : entryExtract path pat p.2 = some objectId) :
    stepKind path pat ids acc p =
      if objectId ∈ ids then mapSet acc objectId p.1 else acc := by
  unfold stepKind
  rw [hx]

theorem mem_foldl_stepKind {path pat : String} {ids : List Nat} {id mid : Nat} :
    ∀ (labels : List (Nat × LabelEntry)) (acc : List (Nat × Nat)),
      (id, mid) ∈ labels.foldl (stepKind path pat ids) acc →
      (id, mid) ∈ acc ∨
        (id ∈ ids ∧ ∃ e, (mid, e) ∈ labels ∧ entryExtract path pat e = some id)
  | [], _, h => Or.inl h
  | p :: rest, acc, h => by
    rcases mem_foldl_stepKind rest (stepKind path pat ids acc p) h with h1 | h1
    · cases hx : entryExtract path pat p.2 with
      | none =>
        rw [stepKind_eq_none hx] at h1
        exact Or.inl h1
      | some objectId =>
        rw [stepKind_eq_some hx] at h1
        by_cases hin : objectId ∈ ids
        · rw [if_pos hin] at h1
          rcases mem_mapSet h1 with hm | ⟨rfl, rfl⟩
          · exact Or.inl hm
          · exact Or.inr ⟨hin, p.2, List.mem_cons_self _ _, hx⟩
        · rw [if_neg hin] at h1
          exact Or.inl h1
    · obtain ⟨hin, e, he, hx⟩ := h1
      exact Or.inr ⟨hin, e, List.mem_cons_of_mem _ he, hx⟩

theorem mem_buildKindIndex {labels : List (Nat × LabelEntry)} {path pat : String}
    {ids : List Nat} {id mid : Nat}
    (h : (id, mid) ∈ buildKindIndex labels path pat ids) :
    id ∈ ids ∧ ∃ e, (mid, e) ∈ labels ∧ entryExtract path pat e = some id := by
  rcases mem_foldl_stepKind labels [] h with h1 | h1
  · cases h1
  · exact h1

theorem keys_nodup_foldl_stepKind {path pat : String} {ids : List Nat} :
    ∀ (labels : List (Nat × LabelEntry)) (acc : List (Nat × Nat)),
      (acc.map Prod.fst).Nodup →
      ((labels.foldl (stepKind path pat ids) acc).map Prod.fst).Nodup
  | [], _, h => h
  | p :: rest, acc, h => by
    refine keys_nodup_foldl_stepKind rest (stepKind path pat ids acc p) ?_
    cases hx : entryExtract path pat p.2 with
    | none =>
      rw [stepKind_eq_none hx]
      exact h
    | some objectId =>
      rw [stepKind_eq_some hx]
      by_cases hin : objectId ∈ ids
      · rw [if_pos hin]
        exact keys_nodup_mapSet h
      · rw [if_neg hin]
        exact h

theorem keys_nodup_buildKindIndex {labels : List (Nat × LabelEntry)} {path pat : String}
    {ids : List Nat} : ((buildKindIndex labels path pat ids).map Prod.fst).Nodup :=
  keys_nodup_foldl_stepKind labels [] List.nodup_nil

theorem stepResolve_eq_none {locData : JVal} {acc : List (Nat × JVal)} {p : Nat × Nat}
    (hx : resolveOne locData p.2 = none) : stepResolve locData acc p = acc := by
  unfold stepResolve
  rw [hx]

theorem stepResolve_eq_some {locData : JVal} {acc : List (Nat × JVal)} {p : Nat × Nat}
    {w : JVal} (hx : resolveOne locData p.2 = some w) :
    stepResolve locData acc p = mapSet acc p.1 w := by
  unfold stepResolve
  rw [hx]

theorem mem_foldl_stepResolve {locData : JVal} {id : Nat} {v : JVal} :
    ∀ (idx : List (Nat × Nat)) (acc : List (Nat × JVal)),
      (id, v) ∈ idx.foldl (stepResolve locData) acc →
      (id, v) ∈ acc ∨ ∃ mid, (id, mid) ∈ idx ∧ resolveOne locData mid = some v
  | [], _, h => Or.inl h
  | p :: rest, acc, h => by
    rcases mem_foldl_stepResolve rest (stepResolve locData acc p) h with h1 | h1
    · cases hx : resolveOne locData p.2 with
      | none =>
        rw [stepResolve_eq_none hx] at h1
        exact Or.inl h1
      | some w =>
        rw [stepResolve_eq_some hx] at h1
        rcases mem_mapSet h1 with hm | ⟨rfl, rfl⟩
        · exact Or.inl hm
        · exact Or.inr ⟨p.2, List.mem_cons_self _ _, hx⟩
    · obtain ⟨mid, hm, hx⟩ := h1
      exact Or.inr ⟨mid, List.mem_cons_of_mem _ hm, hx⟩

theorem mem_buildLabels {locData : JVal} {idx : List (Nat × Nat)} {id : Nat} {v : JVal}
    (h : (id, v) ∈ buildLabels locData idx) :
    ∃ mid, (id, mid) ∈ idx ∧ resolveOne locData mid = some v := by
  rcases mem_foldl_stepResolve idx [] h with h1 | h1
  · cases h1
  · exact h1

/-- With the index keys unique, an object ID whose sole recorded
messageId does not resolve is absent from the built LabelMap. -/
theorem not_mem_buildLabels {locData : JVal} {idx : List (Nat × Nat)} {id mid : Nat}
    (hnd : (idx.map Prod.fst).Nodup) (hmem : (id, mid) ∈ idx)
    (hres : resolveOne locData mid = none) :
    ∀ v, (id, v) ∉ buildLabels locData idx := by
  intro v hv
  obtain ⟨mid2, hm2, hr2⟩ := mem_buildLabels hv
  rw [assoc_val_unique hnd hm2 hmem] at hr2
  rw [hres] at hr2
  cases hr2

theorem resolveOne_eq_some {locData : JVal} {mid : Nat} {v : JVal}
    (h : resolveOne locData mid = some v) :
    ∃ elems, jsGet locData mid = some (JVal.jarr elems) ∧
      elems.head? = some v ∧ truthy v = true := by
  unfold resolveOne at h
  split at h
  · next entry hg =>
    split at h
    · next htr =>
      split at h
      · next elems =>
        split at h
        · next hlen =>
          split at h
          · next w hw =>
            split at h
            · next htw =>
              cases h
              exact ⟨elems, hg, hw, htw⟩
            · cases h
          · cases h
        · cases h
      · next other hother => cases h
    · cases h
  · cases h

theorem entryExtract_eq_some {path pat : String} {e : LabelEntry} {id : Nat}
    (h : entryExtract path pat e = some id) :
    e.FullPath = some path ∧
      ∃ l, e.label = some l ∧ l ≠ "" ∧ scanMatch pat.data l.data = some id := by
  unfold entryExtract at h
  split at h
  · next hp =>
    split at h
    · next l hl =>
      split at h
      · cases h
      · next hne => exact ⟨hp, l, hl, hne, h⟩
    · next hl => cases h
  · cases h

theorem truthy_ne_jnull {v : JVal} (h : truthy v = true) : v ≠ JVal.jnull := by
  intro hv
  rw [hv] at h
  cases h

theorem isNull_false_of_jsGet {d : JVal} {i : Nat} {x : JVal}
    (h : jsGet d i = some x) : isNull d = false := by
  cases d with
  | jnull => cases h
  | jbool b => rfl
  | jnum n => rfl
  | jstr s => rfl
  | jarr elems => rfl
  | jobj fields => rfl

/-- When the string-table document is not null and its element at index
1 is a non-null value, the run does not crash and each kind's output map
is the resolution fold of that kind's index over that element. -/
theorem extract_eq_maps {c : StarMapCache} {m : MainLocalization} {enUs : JVal}
    {out : StellarLabels} {locData : JVal}
    (hrun : extractStellarLabels c m enUs = some out)
    (hg : jsGet enUs 1 = some locData) (hnn : isNull locData = false) :
    ∀ k, kindOut k out = buildLabels locData (kindIndex k c m) := by
  unfold extractStellarLabels at hrun
  split at hrun
  · cases hrun
  · split at hrun
    · next ld hg2 =>
      rw [hg] at hg2
      cases hg2
      split at hrun
      · next hnull =>
        rw [hnn] at hnull
        cases hnull
      · cases hrun
        intro k
        cases k <;> rfl
    · next hg2 =>
      rw [hg] at hg2
      cases hg2

/-- When the run completes with some output and some kind's map is
nonempty, the document's element at index 1 exists and is not null. -/
theorem extract_some_locData {c : StarMapCache} {m : MainLocalization} {enUs : JVal}
    {out : StellarLabels} {k : Kind} {id : Nat} {v : JVal}
    (hrun : extractStellarLabels c m enUs = some out)
    (hmem : (id, v) ∈ kindOut k out) :
    ∃ locData, jsGet enUs 1 = some locData ∧ isNull locData = false ∧
      kindOut k out = buildLabels locData (kindIndex k c m) := by
  unfold extractStellarLabels at hrun
  split at hrun
  · cases hrun
  · split at hrun
    · next ld hg2 =>
      split at hrun
      · split at hrun
        · cases hrun
          cases k <;> cases hmem
        · cases hrun
      · next hnull =>
        cases hrun
        refine ⟨ld, hg2, ?_, ?_⟩
        · cases hb : isNull ld
          · rfl
          · exact absurd hb hnull
        · cases k <;> rfl
    · split at hrun
      · cases hrun
        cases k <;> cases hmem
      · cases hrun

/-- The spine of the three-link chain: membership of an ID in a built
LabelMap forces the ID into the discovered set, a matching localization
entry, and a resolvable string-table element. -/
theorem mem_buildLabels_kind {k : Kind} {c : StarMapCache} {m : MainLocalization}
    {locData : JVal} {id : Nat} {v : JVal}
    (hmem : (id, v) ∈ buildLabels locData (kindIndex k c m)) :
    id ∈ kindIdSet k c ∧
      ∃ mid e, (mid, e) ∈ optList m.labels ∧
        e.FullPath = some (kindPath k) ∧
        (∃ l, e.label = some l ∧ scanMatch (kindPat k).data l.data = some id) ∧
        ∃ elems, jsGet locData mid = some (JVal.jarr elems) ∧
          elems.head? = some v ∧ truthy v = true := by
  obtain ⟨mid, hidx, hres⟩ := mem_buildLabels hmem
  obtain ⟨hin, e, he, hx⟩ := mem_buildKindIndex hidx
  obtain ⟨hp, l, hl, _, hs⟩ := entryExtract_eq_some hx
  obtain ⟨elems, hg, hh, ht⟩ := resolveOne_eq_some hres
  exact ⟨hin, mid, e, he, hp, ⟨l, hl, hs⟩, elems, hg, hh, ht⟩

theorem resolveOne_cons {locData : JVal} {mid : Nat} {a : JVal} {t : List JVal}
    (hg : jsGet locData mid = some (JVal.jarr (a :: t))) :
    resolveOne locData mid = if truthy a = true then some a else none := by
  unfold resolveOne
  rw [hg]
  simp [truthy]

theorem resolveOne_eq_none_of_falsy {locData : JVal} {mid : Nat} {elems : List JVal}
    {v : JVal} (hg : jsGet locData mid = some (JVal.jarr elems))
    (hh : elems.head? = some v) (hf : truthy v = false) :
    resolveOne locData mid = none := by
  cases elems with
  | nil => cases hh
  | cons a t =>
    have hv : a = v := by
      have h2 : some a = some v := hh
      cases h2
      rfl
    subst hv
    rw [resolveOne_cons hg, hf]
    simp

/-! Claims about the label resolver. -/

/-- C7: after ID discovery, the three ID sets equal the deduplicated
union of every ID observed at any nesting level of the star-map
catalog: region IDs are the region keys; constellation IDs are the
union of the region-level constellationIDs lists and the constellation
keys; solar-system IDs are the union of the region-level solarSystemIDs
lists, the constellation-level solarSystemIDs lists, and the keys of
any top-level direct solarSystems listing. -/
theorem discovered_id_sets_spec (c : StarMapCache) :
    (∀ id : Nat, id ∈ allRegionIds c ↔ ∃ e, (id, e) ∈ optList c.regions) ∧
    (∀ id : Nat, id ∈ allConstellationIds c ↔
      ((∃ p ∈ optList c.regions, id ∈ optList p.2.constellationIDs) ∨
       ∃ e, (id, e) ∈ optList c.constellations)) ∧
    (∀ id : Nat, id ∈ allSystemIds c ↔
      ((∃ p ∈ optList c.regions, id ∈ optList p.2.solarSystemIDs) ∨
       (∃ p ∈ optList c.constellations, id ∈ optList p.2.solarSystemIDs) ∨
       id ∈ optList c.solarSystems)) ∧
    (allRegionIds c).Nodup ∧ (allConstellationIds c).Nodup ∧ (allSystemIds c).Nodup := by
  refine ⟨?_, ?_, ?_, ?_, ?_, ?_⟩
  · intro id
    rw [allRegionIds, mem_jsSetAddAll]
    simp only [List.not_mem_nil, false_or]
    exact mem_map_fst
  · intro id
    rw [allConstellationIds]
    rw [mem_jsSetAddAll,
        mem_foldl_jsSetAddAll (fun p : Nat × RegionEntry => optList p.2.constellationIDs)]
    simp only [List.not_mem_nil, false_or]
    exact or_congr Iff.rfl mem_map_fst
  · intro id
    rw [allSystemIds]
    rw [mem_jsSetAddAll,
        mem_foldl_jsSetAddAll (fun p : Nat × ConstellationEntry => optList p.2.solarSystemIDs),
        mem_foldl_jsSetAddAll (fun p : Nat × RegionEntry => optList p.2.solarSystemIDs)]
    simp only [List.not_mem_nil, false_or]
    exact or_assoc
  · exact nodup_jsSetAddAll _ _ List.nodup_nil
  · exact nodup_jsSetAddAll _ _
      (nodup_foldl_jsSetAddAll (fun p : Nat × RegionEntry => optList p.2.constellationIDs)
        _ _ List.nodup_nil)
  · exact nodup_jsSetAddAll _ _
      (nodup_foldl_jsSetAddAll (fun p : Nat × ConstellationEntry => optList p.2.solarSystemIDs) _ _
        (nodup_foldl_jsSetAddAll (fun p : Nat × RegionEntry => optList p.2.solarSystemIDs)
          _ _ List.nodup_nil))

/-- C1: for every object kind and integer ID, the ID appears in that
kind's output LabelMap only if all three links resolve: the ID belongs
to the kind's discovered ID set, some localization-index entry carries
the kind's FullPath tag and a label whose extracted numeric ID equals
it, and the string table holds at that messageId an array whose first
element is non-null (indeed truthy); with the run completing, a missing
link leaves the ID absent rather than raising an error. -/
theorem labelMap_requires_all_links (k : Kind) (c : StarMapCache) (m : MainLocalization)
    (enUs : JVal) (out : StellarLabels) (id : Nat) (v : JVal)
    (hrun : extractStellarLabels c m enUs = some out)
    (hmem : (id, v) ∈ kindOut k out) :
    id ∈ kindIdSet k c ∧
    ∃ mid e, (mid, e) ∈ optList m.labels ∧
      e.FullPath = some (kindPath k) ∧
      (∃ l, e.label = some l ∧ scanMatch (kindPat k).data l.data = some id) ∧
      ∃ locData elems, jsGet enUs 1 = some locData ∧
        jsGet locData mid = some (JVal.jarr elems) ∧
        elems.head? = some v ∧ v ≠ JVal.jnull ∧ truthy v = true := by
  obtain ⟨locData, hg, hnn, heq⟩ := extract_some_locData hrun hmem
  rw [heq] at hmem
  obtain ⟨hin, mid, e, he, hp, hl, elems, hge, hh, ht⟩ := mem_buildLabels_kind hmem
  exact ⟨hin, mid, e, he, hp, hl, locData, elems, hg, hge, hh, truthy_ne_jnull ht, ht⟩

/-- C1 witness: the Jita scenario evaluated on closed fixtures. -/
theorem labelMap_requires_all_links_witness :
    30000001 ∈ kindIdSet Kind.system cacheW ∧
    ∃ mid e, (mid, e) ∈ optList mainLocW.labels ∧
      e.FullPath = some (kindPath Kind.system) ∧
      (∃ l, e.label = some l ∧
        scanMatch (kindPat Kind.system).data l.data = some 30000001) ∧
      ∃ locData elems, jsGet enUsW 1 = some locData ∧
        jsGet locData mid = some (JVal.jarr elems) ∧
        elems.head? = some (JVal.jstr "Jita") ∧ JVal.jstr "Jita" ≠ JVal.jnull ∧
        truthy (JVal.jstr "Jita") = true :=
  labelMap_requires_all_links Kind.system cacheW mainLocW enUsW outW 30000001
    (JVal.jstr "Jita") rfl (List.Mem.head _)

/-- C9: for every object kind, an ID whose resolved string-table
entry's first element is a falsy value - in particular the empty
string - is excluded from the output LabelMap even though that element
is non-null; only IDs whose first element is truthy are emitted. -/
theorem falsy_first_element_excluded (k : Kind) (c : StarMapCache) (m : MainLocalization)
    (enUs : JVal) (out : StellarLabels) (locData : JVal) (id mid : Nat)
    (elems : List JVal) (v : JVal)
    (hrun : extractStellarLabels c m enUs = some out)
    (hg : jsGet enUs 1 = some locData)
    (hidx : (id, mid) ∈ kindIndex k c m)
    (hentry : jsGet locData mid = some (JVal.jarr elems))
    (hhead : elems.head? = some v)
    (hfalsy : truthy v = false) :
    (∀ w, (id, w) ∉ kindOut k out) ∧
    (∀ id2 w, (id2, w) ∈ kindOut k out → truthy w = true) := by
  have hnn : isNull locData = false := isNull_false_of_jsGet hentry
  have hmaps := extract_eq_maps hrun hg hnn k
  constructor
  · rw [hmaps]
    exact not_mem_buildLabels keys_nodup_buildKindIndex hidx
      (resolveOne_eq_none_of_falsy hentry hhead hfalsy)
  · intro id2 w hw
    rw [hmaps] at hw
    obtain ⟨mid2, _, hres⟩ := mem_buildLabels hw
    obtain ⟨_, _, _, ht⟩ := resolveOne_eq_some hres
    exact ht

/-- C9 witness: the Jita scenario with the name replaced by the empty
string, evaluated on closed fixtures: messageId 500 resolves to an
array holding the empty string, and 30000001 is absent from the system
LabelMap. -/
theorem falsy_first_element_excluded_witness :
    (∀ w, (30000001, w) ∉ kindOut Kind.system outEmptyName) ∧
    (∀ id2 w, (id2, w) ∈ kindOut Kind.system outEmptyName → truthy w = true) :=
  falsy_first_element_excluded Kind.system cacheW mainLocW enUsEmptyName outEmptyName
    (JVal.jobj [(500, JVal.jarr [JVal.jstr ""])]) 30000001 500 [JVal.jstr ""]
    (JVal.jstr "") rfl rfl (by decide) rfl rfl rfl

/-- C10: name resolution never consults the top level of the loaded
English string-table document: every lookup happens on the element at
index 1 of the document, so the whole result depends only on that
element, and entries keyed directly by messageId at the document's top
level are never used for any kind's LabelMap. -/
theorem resolution_uses_index1_only (c : StarMapCache) (m : MainLocalization) :
    (∀ d1 d2 : JVal, isNull d1 = false → isNull d2 = false →
       jsGet d1 1 = jsGet d2 1 →
       extractStellarLabels c m d1 = extractStellarLabels c m d2) ∧
    (∀ fields : List (Nat × JVal), (∀ p ∈ fields, p.1 ≠ 1) →
       extractStellarLabels c m (JVal.jobj fields) =
         extractStellarLabels c m (JVal.jobj [])) := by
  have hdep : ∀ d1 d2 : JVal, isNull d1 = false → isNull d2 = false →
      jsGet d1 1 = jsGet d2 1 →
      extractStellarLabels c m d1 = extractStellarLabels c m d2 := by
    intro d1 d2 h1 h2 h12
    unfold extractStellarLabels
    rw [h1, h2, h12]
  refine ⟨hdep, fun fields hne => hdep _ _ rfl rfl ?_⟩
  have hfind : fields.find? (fun p => p.1 == 1) = none :=
    List.find?_eq_none.2 (fun p hp => by simpa using hne p hp)
  simp [jsGet, hfind]

/-- C10 witness: a document carrying the string table as its second
array element and a document carrying it under the top-level key 1
produce identical output, evaluated on closed fixtures. -/
theorem resolution_uses_index1_only_witness :
    extractStellarLabels cacheW mainLocW (JVal.jarr [JVal.jnull, JVal.jobj []]) =
      extractStellarLabels cacheW mainLocW (JVal.jobj [(1, JVal.jobj [])]) :=
  (resolution_uses_index1_only cacheW mainLocW).1 _ _ rfl rfl rfl

/-- C8: if any one of the three catalog files is missing or unparsable,
the label-resolution run aborts with a descriptive error before any
resolution is attempted - no output is produced and partial catalogs
are never used; conversely a completed run implies all three catalogs
loaded and the result is the full three-stage resolution. -/
theorem catalog_load_is_fatal (c : Option StarMapCache) (m : Option MainLocalization)
    (e : Option JVal) :
    ((c = none ∨ m = none ∨ e = none) → ∃ msg, runExtraction c m e = .error msg) ∧
    (∀ r, runExtraction c m e = .ok r →
      ∃ cache mainLoc enUs, c = some cache ∧ m = some mainLoc ∧ e = some enUs ∧
        r = extractStellarLabels cache mainLoc enUs) := by
  cases c with
  | none => exact ⟨fun _ => ⟨_, rfl⟩, fun r hr => by cases hr⟩
  | some cache =>
    cases m with
    | none => exact ⟨fun _ => ⟨_, rfl⟩, fun r hr => by cases hr⟩
    | some mainLoc =>
      cases e with
      | none => exact ⟨fun _ => ⟨_, rfl⟩, fun r hr => by cases hr⟩
      | some enUs =>
        constructor
        · rintro (h | h | h) <;> cases h
        · intro r hr
          refine ⟨cache, mainLoc, enUs, rfl, rfl, rfl, ?_⟩
          have hr2 : (Except.ok (extractStellarLabels cache mainLoc enUs) :
              Except String (Option StellarLabels)) = Except.ok r := hr
          cases hr2
          rfl

/-- C8 witness: a missing star-map catalog aborts the run with an
error. -/
theorem catalog_load_is_fatal_witness :
    ∃ msg, runExtraction none (some mainLocW) (some enUsW) = .error msg :=
  (catalog_load_is_fatal none (some mainLocW) (some enUsW)).1 (Or.inl rfl)

/-! Claims about the format sniffer and the asset router. -/

/-- The pickle materializer is wrapped in try/catch as a whole: no
error ever escapes it, whatever the world does. -/
theorem processPickleFile_err_none (w : World) (filename src : String) :
    (processPickleFile w filename src).2 = none := by
  cases hc : w.copyFile src (destPickleFile filename) with
  | error e => simp [processPickleFile, hc]
  | ok u =>
    cases hcv : convertPickleToJson w (destPickleFile filename) (destJsonFile filename) with
    | mk evs err =>
      cases err <;> simp [processPickleFile, hc, hcv]

/-- Exhaustive case split of the category switch: the selected category
is decided by exact string match of the filetype tag. -/
theorem categorize_cases (ft : String) :
    (ft = "static" ∧ categorize ft = .static) ∨
    (ft = "schema" ∧ categorize ft = .schema) ∨
    (ft = "fsdbinary" ∧ categorize ft = .binaryFormat) ∨
    (ft = "pickle" ∧ categorize ft = .serializedBlob) ∨
    (ft ∉ (["static", "schema", "fsdbinary", "pickle"] : List String) ∧
      categorize ft = .other ft) := by
  unfold categorize
  by_cases h1 : ft = "static"
  · exact Or.inl ⟨h1, by rw [if_pos h1]⟩
  · rw [if_neg h1]
    by_cases h2 : ft = "schema"
    · exact Or.inr (Or.inl ⟨h2, by rw [if_pos h2]⟩)
    · rw [if_neg h2]
      by_cases h3 : ft = "fsdbinary"
      · exact Or.inr (Or.inr (Or.inl ⟨h3, by rw [if_pos h3]⟩))
      · rw [if_neg h3]
        by_cases h4 : ft = "pickle"
        · exact Or.inr (Or.inr (Or.inr (Or.inl ⟨h4, by rw [if_pos h4]⟩)))
        · rw [if_neg h4]
          refine Or.inr (Or.inr (Or.inr (Or.inr ⟨?_, rfl⟩)))
          simp [h1, h2, h3, h4]

/-- C4: a manifest line matching the structural pattern increments the
counter once and runs exactly one materialization routine, the one
selected by exact match of the extracted filetype against the four
known tags with everything else mapping to other(filetype); a line not
matching the pattern produces no effect, no error and no counter
increment. -/
theorem router_line_spec (w : World) (line : String) :
    (matchManifestLine line.data = none → handleManifestLine w line = (0, ([], none))) ∧
    (∀ e, matchManifestLine line.data = some e →
      handleManifestLine w line = (1, materialize w (categorize e.filetype) e) ∧
      ((e.filetype = "static" ∧ categorize e.filetype = .static) ∨
       (e.filetype = "schema" ∧ categorize e.filetype = .schema) ∨
       (e.filetype = "fsdbinary" ∧ categorize e.filetype = .binaryFormat) ∨
       (e.filetype = "pickle" ∧ categorize e.filetype = .serializedBlob) ∨
       (e.filetype ∉ (["static", "schema", "fsdbinary", "pickle"] : List String) ∧
        categorize e.filetype = .other e.filetype))) := by
  constructor
  · intro h
    simp [handleManifestLine, h]
  · intro e he
    refine ⟨?_, categorize_cases e.filetype⟩
    simp [handleManifestLine, he]

/-- C4 witness: the line a.pickle,b/c evaluated on closed inputs. -/
theorem router_line_spec_witness :
    (handleManifestLine okWorld "a.pickle,b/c" =
      (1, materialize okWorld (categorize entryPickle.filetype) entryPickle)) ∧
    ((entryPickle.filetype = "static" ∧ categorize entryPickle.filetype = .static) ∨
     (entryPickle.filetype = "schema" ∧ categorize entryPickle.filetype = .schema) ∨
     (entryPickle.filetype = "fsdbinary" ∧
       categorize entryPickle.filetype = .binaryFormat) ∨
     (entryPickle.filetype = "pickle" ∧
       categorize entryPickle.filetype = .serializedBlob) ∨
     (entryPickle.filetype ∉ (["static", "schema", "fsdbinary", "pickle"] : List String) ∧
       categorize entryPickle.filetype = .other entryPickle.filetype)) :=
  (router_line_spec okWorld "a.pickle,b/c").2 entryPickle (by decide)

/-- C3 counterexample: a 16-byte buffer that differs from the SQLite
signature in its first byte's high bit is accepted by the sniffer,
because Node's ascii decoding clears the high bit of every byte before
the comparison - so the sniffer does not return true exactly when the
first 16 bytes equal the signature. -/
theorem sniffer_not_exact_match :
    isValidSQLite (some maskedSqliteBuf) = true ∧
      maskedSqliteBuf.take 16 ≠ sqliteHeader := by
  decide

/-- C3 amended: the sniffer returns false on a read error and on every
buffer shorter than 16 bytes; on a buffer of at least 16 bytes it
returns true exactly when the first 16 bytes, each reduced modulo 128
(the high-bit clearing of Node's ascii decoding), equal the 16-byte
signature. -/
theorem sniffer_amended_spec :
    isValidSQLite none = false ∧
    (∀ b : List Nat, b.length < 16 → isValidSQLite (some b) = false) ∧
    (∀ b : List Nat, 16 ≤ b.length →
      (isValidSQLite (some b) = true ↔ asciiDecode (b.take 16) = sqliteHeader)) := by
  refine ⟨rfl, ?_, ?_⟩
  · intro b hb
    show (if b.length < 16 then false
          else asciiDecode (b.take 16) == sqliteHeader) = false
    rw [if_pos hb]
  · intro b hb
    show ((if b.length < 16 then false
           else asciiDecode (b.take 16) == sqliteHeader) = true) ↔
      asciiDecode (b.take 16) = sqliteHeader
    rw [if_neg (Nat.not_lt.2 hb)]
    exact beq_iff_eq

/-- C3 amended witness: the short-buffer branch evaluated at a
three-byte buffer. -/
theorem sniffer_amended_spec_witness :
    ([1, 2, 3] : List Nat).length < 16 ∧ isValidSQLite (some [1, 2, 3]) = false :=
  ⟨by decide, sniffer_amended_spec.2.1 [1, 2, 3] (by decide)⟩

/-- C5: a static entry is copied to static/filename.static; the
sniffer then runs on the source bytes; on a match a second, independent
copy goes to sqlite/filename.sqlite - and a failure of the second copy
leaves the first in the trace; on a non-match the non-match is logged
and nothing further happens.  In particular a source whose first 16
bytes equal the SQLite signature yields both copies. -/
theorem static_entry_spec (w : World) (filename src : String)
    (hcopy : w.copyFile src (destStaticFile filename) = Except.ok ()) :
    (isValidSQLite (w.readFile src) = true →
      (w.copyFile src (destSqliteFile filename) = Except.ok () →
        processStaticFile w filename src =
          ([Event.copied src (destStaticFile filename),
            Event.logged ("Copied " ++ src ++ " to " ++ destStaticFile filename),
            Event.copied src (destSqliteFile filename),
            Event.logged ("Copied " ++ src ++ " to " ++ destSqliteFile filename)], none)) ∧
      (∀ err, w.copyFile src (destSqliteFile filename) = Except.error err →
        processStaticFile w filename src =
          ([Event.copied src (destStaticFile filename),
            Event.logged ("Copied " ++ src ++ " to " ++ destStaticFile filename)],
           some err))) ∧
    (isValidSQLite (w.readFile src) = false →
      processStaticFile w filename src =
        ([Event.copied src (destStaticFile filename),
          Event.logged ("Copied " ++ src ++ " to " ++ destStaticFile filename),
          Event.logged ("Invalid SQLite file: " ++ src)], none)) := by
  refine ⟨fun hsn => ⟨fun hc2 => ?_, fun err herr => ?_⟩, fun hsn => ?_⟩
  · simp [processStaticFile, hcopy, hsn, hc2]
  · simp [processStaticFile, hcopy, hsn, herr]
  · simp [processStaticFile, hcopy, hsn]

/-- C5 witness: in a world where the source bytes are exactly the
SQLite signature and copies succeed, both destination copies appear. -/
theorem static_entry_spec_witness :
    isValidSQLite (okWorld.readFile "base/cc/Foo") = true ∧
    processStaticFile okWorld "Foo" "base/cc/Foo" =
      ([Event.copied "base/cc/Foo" (destStaticFile "Foo"),
        Event.logged ("Copied " ++ "base/cc/Foo" ++ " to " ++ destStaticFile "Foo"),
        Event.copied "base/cc/Foo" (destSqliteFile "Foo"),
        Event.logged ("Copied " ++ "base/cc/Foo" ++ " to " ++ destSqliteFile "Foo")], none) :=
  ⟨by decide,
   ((static_entry_spec okWorld "Foo" "base/cc/Foo" rfl).1 (by decide)).1 rfl⟩

/-- C6: a serializedBlob entry is copied to pickle/filename.pickle and
the decoder runs on that copy with its JSON-serialized result written
to json/filename.json; a decode failure is surfaced by the decoder to
its caller, caught in the materializer, logged with the offending
filename, and never escapes the line handler. -/
theorem pickle_entry_spec (w : World) (filename src : String) :
    (processPickleFile w filename src).2 = none ∧
    (w.copyFile src (destPickleFile filename) = Except.ok () →
      (∀ v, w.pickleDecode (destPickleFile filename) = Except.ok v →
        w.writeJson (destJsonFile filename) v = Except.ok () →
        Event.copied src (destPickleFile filename) ∈ (processPickleFile w filename src).1 ∧
        Event.wrote (destJsonFile filename) v ∈ (processPickleFile w filename src).1) ∧
      (∀ err, w.pickleDecode (destPickleFile filename) = Except.error err →
        (convertPickleToJson w (destPickleFile filename) (destJsonFile filename)).2 =
          some err ∧
        Event.errorLogged ("Error processing pickle file " ++ filename ++ ":") err ∈
          (processPickleFile w filename src).1)) := by
  refine ⟨processPickleFile_err_none w filename src, fun hcopy => ⟨?_, ?_⟩⟩
  · intro v hdec hwrite
    constructor <;> simp [processPickleFile, convertPickleToJson, hcopy, hdec, hwrite]
  · intro err hdec
    refine ⟨by simp [convertPickleToJson, hdec], ?_⟩
    simp [processPickleFile, convertPickleToJson, hcopy, hdec]

/-- C6 witness: a failed decode on closed inputs is surfaced by the
converter and logged against the filename without escaping. -/
theorem pickle_entry_spec_witness :
    (convertPickleToJson decodeFailWorld (destPickleFile "a") (destJsonFile "a")).2 =
      some "UnsupportedOpcode" ∧
    Event.errorLogged ("Error processing pickle file " ++ "a" ++ ":") "UnsupportedOpcode" ∈
      (processPickleFile decodeFailWorld "a" "base/b/c").1 :=
  ((pickle_entry_spec decodeFailWorld "a" "base/b/c").2 rfl).2 "UnsupportedOpcode" rfl

/-- C2 counterexample: a static entry whose copy fails with EACCES
leaves the line handler with an escaping error and an empty effect
trace - the failure is neither caught nor logged with the filename, so
errors do not leave the stream unaffected for every category. -/
theorem error_containment_counterexample :
    (handleManifestLine failWorld "a.static,b/c").2.2 = some "EACCES" ∧
    ∀ msg cause,
      Event.errorLogged msg cause ∉ (handleManifestLine failWorld "a.static,b/c").2.1 := by
  constructor
  · rfl
  · intro msg cause h
    have hevs : (handleManifestLine failWorld "a.static,b/c").2.1 = [] := rfl
    rw [hevs] at h
    cases h

/-- C2 amended: only serializedBlob materialization is protected by a
per-entry try/catch: no error ever escapes it, and any failure - of the
copy or of the conversion - is logged with the filename and its cause.
An error materializing any other category escapes the line handler
uncaught: for static, schema and binaryFormat a failure of the copy
(for static, of either copy), and for other a failure of the directory
creation or of the copy, leaves the error escaping, with nothing ever
logged against the filename. -/
theorem error_containment_amended (w : World) (line : String) (e : ManifestEntry)
    (he : matchManifestLine line.data = some e) :
    (categorize e.filetype = AssetCategory.serializedBlob →
      (handleManifestLine w line).2.2 = none) ∧
    (categorize e.filetype = AssetCategory.serializedBlob → ∀ err,
      (w.copyFile (w.baseDir ++ "/" ++ e.sourceRelativePath) (destPickleFile e.filename) =
          Except.error err ∨
       (w.copyFile (w.baseDir ++ "/" ++ e.sourceRelativePath) (destPickleFile e.filename) =
          Except.ok () ∧
        (convertPickleToJson w (destPickleFile e.filename) (destJsonFile e.filename)).2 =
          some err)) →
      Event.errorLogged ("Error processing pickle file " ++ e.filename ++ ":") err ∈
        (handleManifestLine w line).2.1) ∧
    (categorize e.filetype = AssetCategory.static → ∀ err,
      (w.copyFile (w.baseDir ++ "/" ++ e.sourceRelativePath) (destStaticFile e.filename) =
          Except.error err →
        (handleManifestLine w line).2 = ([], some err)) ∧
      (w.copyFile (w.baseDir ++ "/" ++ e.sourceRelativePath) (destStaticFile e.filename) =
          Except.ok () →
       isValidSQLite (w.readFile (w.baseDir ++ "/" ++ e.sourceRelativePath)) = true →
       w.copyFile (w.baseDir ++ "/" ++ e.sourceRelativePath) (destSqliteFile e.filename) =
          Except.error err →
        (handleManifestLine w line).2.2 = some err ∧
        ∀ msg cause, Event.errorLogged msg cause ∉ (handleManifestLine w line).2.1)) ∧
    (categorize e.filetype = AssetCategory.schema → ∀ err,
      w.copyFile (w.baseDir ++ "/" ++ e.sourceRelativePath) (destSchemaFile e.filename) =
          Except.error err →
        (handleManifestLine w line).2 = ([], some err)) ∧
    (categorize e.filetype = AssetCategory.binaryFormat → ∀ err,
      w.copyFile (w.baseDir ++ "/" ++ e.sourceRelativePath) (destFsdBinaryFile e.filename) =
          Except.error err →
        (handleManifestLine w line).2 = ([], some err)) ∧
    (∀ rawType, categorize e.filetype = AssetCategory.other rawType → ∀ err,
      (w.mkdirp (rawDir e.respath) = Except.error err →
        (handleManifestLine w line).2 = ([], some err)) ∧
      (w.mkdirp (rawDir e.respath) = Except.ok () →
       w.copyFile (w.baseDir ++ "/" ++ e.sourceRelativePath)
          (rawDir e.respath ++ "/" ++ e.filename ++ "." ++ rawType) = Except.error err →
        (handleManifestLine w line).2 = ([], some err))) := by
  refine ⟨?_, ?_, ?_, ?_, ?_, ?_⟩
  · intro hcat
    simp only [handleManifestLine, he, hcat, materialize]
    exact processPickleFile_err_none w e.filename (w.baseDir ++ "/" ++ e.sourceRelativePath)
  · intro hcat err hdis
    simp only [handleManifestLine, he, hcat, materialize]
    rcases hdis with hc | ⟨hc, hconv⟩
    · simp [processPickleFile, hc]
    · cases hcv : convertPickleToJson w (destPickleFile e.filename) (destJsonFile e.filename) with
      | mk evs err2 =>
        rw [hcv] at hconv
        have herr2 : err2 = some err := hconv
        subst herr2
        simp [processPickleFile, hc, hcv]
  · intro hcat err
    constructor
    · intro hc
      simp [handleManifestLine, he, hcat, materialize, processStaticFile, hc]
    · intro hc hsn hc2
      constructor
      · simp [handleManifestLine, he, hcat, materialize, processStaticFile, hc, hsn, hc2]
      · intro msg cause hmem
        simp [handleManifestLine, he, hcat, materialize, processStaticFile, hc, hsn, hc2] at hmem
  · intro hcat err hc
    simp [handleManifestLine, he, hcat, materialize, processSchemaFile, hc]
  · intro hcat err hc
    simp [handleManifestLine, he, hcat, materialize, processFsdBinaryFile, hc]
  · intro rawType hcat err
    constructor
    · intro hm
      simp [handleManifestLine, he, hcat, materialize, defaultCopyFile, hm]
    · intro hm hc
      simp [handleManifestLine, he, hcat, materialize, defaultCopyFile, hm, hc]

/-- C2 amended witness: on closed inputs, a pickle line in the
all-failing world finishes with no escaping error and with the failure
logged against the filename and its cause, while a static line in the
same world leaves the EACCES error escaping with an empty trace. -/
theorem error_containment_amended_witness :
    (handleManifestLine failWorld "a.pickle,b/c").2.2 = none ∧
    Event.errorLogged ("Error processing pickle file " ++ "a" ++ ":") "EACCES" ∈
      (handleManifestLine failWorld "a.pickle,b/c").2.1 ∧
    (handleManifestLine failWorld "a.static,b/c").2 = ([], some "EACCES") :=
  ⟨(error_containment_amended failWorld "a.pickle,b/c" entryPickle (by decide)).1 rfl,
   (error_containment_amended failWorld "a.pickle,b/c" entryPickle (by decide)).2.1 rfl
     "EACCES" (Or.inl rfl),
   ((error_containment_amended failWorld "a.static,b/c"
      { respath := "", filename := "a", filetype := "static", sourceRelativePath := "b/c" }
      (by decide)).2.2.1 rfl "EACCES").1 rfl⟩
